import Mathlib

/-
Verification of the taara snapshot library (src/lib/API.ts, src/lib/index.ts,
src/lib/utils.ts) against its natural-language specification.

The TypeScript sources are shallowly embedded: moment dates become an explicit
DateTime record (an invalid moment is represented by the value none of type
Option DateTime), promise pipelines become explicit state passing with an
Except result, and the JSON text layer of JSON.stringify / JSON.parse is
elided by working with the structured value it serialises (the two are
mutually inverse on such values, so nothing observable is lost).
-/

/-- Character for the decimal digit n (n below 10): code point 48 + n. -/
def digitChar (n : Nat) : Char :=
  Char.ofNat (48 + n)

/-- Decimal value of a digit character, as in reading a date field back. -/
def charVal (c : Char) : Nat :=
  c.toNat - 48

/-- Is c one of the characters 0..9. -/
def isDigitChar (c : Char) : Bool :=
  48 ≤ c.toNat && c.toNat ≤ 57

/-- Two-digit zero-padded decimal rendering, as moment format MM, DD, HH, mm, ss. -/
def pad2 (n : Nat) : List Char :=
  [digitChar (n / 10), digitChar (n % 10)]

/-- Four-digit zero-padded decimal rendering, as moment format YYYY. -/
def pad4 (n : Nat) : List Char :=
  [digitChar (n / 1000), digitChar (n / 100 % 10), digitChar (n / 10 % 10), digitChar (n % 10)]

/-- Read a run of digit characters as a decimal number. -/
def readNat (cs : List Char) : Nat :=
  cs.foldl (fun a c => a * 10 + charVal c) 0

/-- A UTC instant at second precision, the payload of a valid moment value. -/
structure DateTime where
  year : Nat
  month : Nat
  day : Nat
  hour : Nat
  minute : Nat
  second : Nat
deriving DecidableEq

/-- Gregorian leap-year rule, as used by moment for day-of-month validation. -/
def isLeapYear (y : Nat) : Bool :=
  (y % 4 == 0 && y % 100 != 0) || y % 400 == 0

/-- Number of days of month m in year y (m between 1 and 12). -/
def daysInMonth (y m : Nat) : Nat :=
  if m == 2 then (if isLeapYear y then 29 else 28)
  else if m == 4 || m == 6 || m == 9 || m == 11 then 30
  else 31

/-- Field ranges under which a DateTime denotes a real calendar instant that
moment accepts as valid and formats with the fixed widths of YYYYMMDD-HHmmss. -/
def validDate (d : DateTime) : Bool :=
  d.year ≤ 9999 && 1 ≤ d.month && d.month ≤ 12 &&
  1 ≤ d.day && d.day ≤ daysInMonth d.year d.month &&
  d.hour < 24 && d.minute < 60 && d.second < 60

/-- Rendering of a date by moment format with SnapshotIdentifier.DATE_FORMAT,
the pattern YYYYMMDD-HHmmss (API.ts line 20), at the character level. -/
def formatChars (d : DateTime) : List Char :=
  pad4 d.year ++ pad2 d.month ++ pad2 d.day ++ '-' ::
    (pad2 d.hour ++ pad2 d.minute ++ pad2 d.second)

/-- Rendering of a date with the fixed format YYYYMMDD-HHmmss, as a string. -/
def formatDate (d : DateTime) : String :=
  ⟨formatChars d⟩

/-- Embedding of moment.utc(datepart, SnapshotIdentifier.DATE_FORMAT) from
getIdentifier (API.ts line 34): a string of the exact shape of the format with
in-range fields yields that instant, anything else yields the invalid moment,
here none.  Moment never throws on an unparsable string; it returns an invalid
moment object, which this model represents as none. -/
def parseDateChars : List Char → Option DateTime
  | [y1, y2, y3, y4, m1, m2, d1, d2, sep, h1, h2, i1, i2, s1, s2] =>
    if sep = '-' ∧ (isDigitChar y1 && isDigitChar y2 && isDigitChar y3 && isDigitChar y4 &&
        isDigitChar m1 && isDigitChar m2 && isDigitChar d1 && isDigitChar d2 &&
        isDigitChar h1 && isDigitChar h2 && isDigitChar i1 && isDigitChar i2 &&
        isDigitChar s1 && isDigitChar s2) = true then
      let d : DateTime :=
        { year := readNat [y1, y2, y3, y4], month := readNat [m1, m2], day := readNat [d1, d2],
          hour := readNat [h1, h2], minute := readNat [i1, i2], second := readNat [s1, s2] }
      if validDate d then some d else none
    else none
  | _ => none

/-- String-level wrapper of parseDateChars. -/
def parseDate (s : String) : Option DateTime :=
  parseDateChars s.toList

/-- Embedding of splitAtLast from src/lib/utils.ts at the character level:
locate the last occurrence of the separator; some (before, after) when present,
none when the separator does not occur. -/
def splitAtLastChars (sep : Char) : List Char → Option (List Char × List Char)
  | [] => none
  | c :: rest =>
    match splitAtLastChars sep rest with
    | some (a, b) => some (c :: a, b)
    | none => if c = sep then some ([], rest) else none

/-- splitAtLast(text, sep) from src/lib/utils.ts: lastIndexOf then substr.
When the separator is absent, lastIndexOf gives -1, substr(0, -1) gives the
empty string and substr(0) gives the whole text, so the result is
(empty, text) - the branch the filesystem listing depends on. -/
def splitAtLast (text : String) (sep : Char) : String × String :=
  match splitAtLastChars sep text.toList with
  | some (a, b) => (⟨a⟩, ⟨b⟩)
  | none => ("", text)

/-- Embedding of the JavaScript string split on the two-character separator
used for table names: scan left to right, cutting at each non-overlapping
occurrence of two consecutive dashes, as text.split with that separator does. -/
def splitDashes : List Char → List (List Char)
  | [] => [[]]
  | [c] => [[c]]
  | c :: c2 :: rest =>
    if c = '-' ∧ c2 = '-' then
      [] :: splitDashes rest
    else
      match splitDashes (c2 :: rest) with
      | [] => [[c]]
      | h :: t => (c :: h) :: t

/-- tablenames.split on the double-dash separator (API.ts line 35), string level. -/
def jsSplitDashes (s : String) : List String :=
  (splitDashes s.toList).map (fun l => (⟨l⟩ : String))

/-- tablenames.join on the double-dash separator (API.ts line 26): the
JavaScript Array.join, empty list giving the empty string. -/
def joinTables : List String → List Char
  | [] => []
  | [n] => n.toList
  | n :: n2 :: rest => n.toList ++ '-' :: '-' :: joinTables (n2 :: rest)

/-- Does the character list contain two consecutive dashes. -/
def hasDoubleDash : List Char → Bool
  | [] => false
  | [_] => false
  | c :: c2 :: rest => (c = '-' ∧ c2 = '-' : Bool) || hasDoubleDash (c2 :: rest)

/-- Does the character list end with a dash. -/
def lastIsDash (cs : List Char) : Bool :=
  match cs.getLast? with
  | some c => c = '-'
  | none => false

/-- Does the table name contain the join separator (two dashes). -/
def containsDoubleDash (s : String) : Bool :=
  hasDoubleDash s.toList

/-- Does the table name end in a single dash, which would fuse with the join
separator that follows it into three dashes and shift the split point. -/
def endsWithDash (s : String) : Bool :=
  lastIsDash s.toList

/-- Does the table name contain the field separator dot. -/
def containsDot (s : String) : Bool :=
  s.toList.contains '.'

/-- SnapshotIdentifier (API.ts lines 19-30): table names and a capture moment.
date is none when the underlying moment is invalid (unparsable input). -/
structure SnapshotIdentifier where
  tablenames : List String
  date : Option DateTime
deriving DecidableEq

/-- Character rendering of the date part of a filename: moment formats an
invalid moment as the literal text Invalid date. -/
def dateChars : Option DateTime → List Char
  | some d => formatChars d
  | none => "Invalid date".toList

/-- SnapshotIdentifier.filename (API.ts lines 24-29): names joined by two
dashes, a dot, the UTC-formatted date, then the extension.  The TypeScript
declaration gives extension the default value .snapshot; call sites that omit
the argument pass that value explicitly here. -/
def SnapshotIdentifier.filename (id : SnapshotIdentifier) (extension : String) : String :=
  ⟨joinTables id.tablenames ++ '.' :: (dateChars id.date ++ extension.toList)⟩

/-- getIdentifier (API.ts lines 32-36): split the input at the last dot,
parse the right part as the date, split the left part on the double dash.
Total: an unparsable date part produces an identifier with an invalid date. -/
def getIdentifier (filename : String) : SnapshotIdentifier :=
  let p := splitAtLast filename '.'
  { tablenames := jsSplitDashes p.1, date := parseDate p.2 }

/-- JSON-representable values: the payload type of the stats and metadata
fields.  JSON numbers are modelled as integers; the claims only move them
around verbatim, so no arithmetic on them is needed. -/
inductive Json where
  | null
  | bool (b : Bool)
  | num (n : Int)
  | str (s : String)
  | arr (elems : List Json)
  | obj (fields : List (String × Json))

/-- StorageMetadata (API.ts lines 38-42). -/
structure StorageMetadata where
  identifier : SnapshotIdentifier
  stats : Json
  metadata : Json

/-- The object literal built by StorageMetadata.toJSON before JSON.stringify
(API.ts lines 45-51), with its three keys in source order.  The JSON text
layer is elided: stringify and parse are mutually inverse on this value. -/
structure EncodedMetadata where
  identifier : String
  metadata : Json
  stats : Json

/-- StorageMetadata.toJSON (API.ts lines 44-52): the identifier is embedded
as its filename with the empty extension; stats and metadata verbatim. -/
def StorageMetadata.toJSON (data : StorageMetadata) : EncodedMetadata :=
  { identifier := data.identifier.filename "", metadata := data.metadata, stats := data.stats }

/-- StorageMetadata.fromJson (API.ts lines 54-62): parse the embedded
identifier string with getIdentifier; stats and metadata verbatim. -/
def StorageMetadata.fromJson (parsed : EncodedMetadata) : StorageMetadata :=
  { identifier := getIdentifier parsed.identifier, stats := parsed.stats,
    metadata := parsed.metadata }

/-- FileDescriptor (API.ts lines 65-68). -/
structure FileDescriptor where
  filename : String
  extension : String
deriving DecidableEq

/-- Error values a pipeline step can reject with.  notFound stands for the
ENOENT family (missing file object); failure carries any other diagnostic. -/
inductive Err where
  | notFound
  | failure (msg : String)
deriving DecidableEq

/-- Result of one promise pipeline step: the world state it leaves behind
together with fulfilment or rejection.  A rejected step still has a state,
which is what lets a finally clause observe and extend it. -/
def PRes (σ α : Type) : Type :=
  σ × Except Err α

/-- Promise then: run the continuation only on fulfilment; a rejection skips
every later then and flows through unchanged. -/
def pthen {σ α β : Type} (r : PRes σ α) (f : α → σ → PRes σ β) : PRes σ β :=
  match r with
  | (s, Except.ok a) => f a s
  | (s, Except.error e) => (s, Except.error e)

/-- Promise finally, as when.js ensure: the cleanup always runs; its
fulfilment value is discarded and the primary outcome is kept, but a cleanup
rejection takes precedence.  tryUnlink below never rejects, so in the
pipelines in index.ts the primary outcome is always kept. -/
def pfinally {σ α β : Type} (r : PRes σ α) (f : σ → PRes σ β) : PRes σ α :=
  match f r.1 with
  | (s1, Except.ok _) => (s1, r.2)
  | (s1, Except.error e) => (s1, Except.error e)

/-- tryUnlink (src/lib/utils.ts lines 53-55): attempt the unlink and swallow
any rejection, resolving with undefined.  unlinkFn models nodefn.call of
fs.unlink on the ambient local filesystem inside the world state. -/
def tryUnlink {σ : Type} (unlinkFn : String → σ → PRes σ Unit) (path : String) (s : σ) :
    PRes σ Unit :=
  ((unlinkFn path s).1, Except.ok ())

/-- arrayify (src/lib/utils.ts lines 8-13): a lone string becomes the
one-element list, an array passes through. -/
def arrayify (elem : String ⊕ List String) : List String :=
  match elem with
  | Sum.inl s => [s]
  | Sum.inr l => l

/-- The database engine capability as index.ts uses it and section 6 of the
spec declares it: dump(tables, outpath) and restore(path), each a promise.
The reference implementation is PostgresEngine in API.ts; its process
spawning stays outside the model, only the success-or-rejection outcome and
the written dump artifact matter to the orchestration claims. -/
structure DatabaseEngine (σ : Type) where
  dump : List String → String → σ → PRes σ Unit
  restore : String → σ → PRes σ Unit

/-- The StorageEngine contract (API.ts lines 70-78), one field per abstract
operation, over an explicit world state. -/
structure StorageEngine (σ : Type) where
  list : σ → PRes σ (List SnapshotIdentifier)
  loadSnapshot : SnapshotIdentifier → String → σ → PRes σ String
  loadMetadata : SnapshotIdentifier → σ → PRes σ StorageMetadata
  saveSnapshot : SnapshotIdentifier → String → σ → PRes σ Unit
  saveMetadata : StorageMetadata → σ → PRes σ StorageMetadata
  deleteSnapshot : SnapshotIdentifier → σ → PRes σ Unit
  deleteMetadata : SnapshotIdentifier → σ → PRes σ Unit

/-- storeSnapshot (src/lib/index.ts lines 41-62): arrayify the tables, make a
fresh identifier carrying the current instant, dump to the temp path, save
the snapshot, save the metadata record, and finally try to unlink the temp
path.  now stands for the moment() default of the identifier constructor and
tempFilePath for the temp.path allocation, both explicit inputs here. -/
def storeSnapshot {σ : Type} (tables : String ⊕ List String) (userMetadata : Json)
    (storageEngine : StorageEngine σ) (dbEngine : DatabaseEngine σ)
    (now : DateTime) (tempFilePath : String)
    (unlinkFn : String → σ → PRes σ Unit) (s : σ) : PRes σ StorageMetadata :=
  let tableList := arrayify tables
  let identifier : SnapshotIdentifier := { tablenames := tableList, date := some now }
  let storedData : StorageMetadata :=
    { identifier := identifier, stats := Json.obj [], metadata := userMetadata }
  pfinally
    (pthen (dbEngine.dump tableList tempFilePath s) (fun _ s =>
      pthen (storageEngine.saveSnapshot identifier tempFilePath s) (fun _ s =>
        storageEngine.saveMetadata storedData s)))
    (tryUnlink unlinkFn tempFilePath)

/-- restoreSnapshot (src/lib/index.ts lines 69-85): load the metadata, load
the snapshot for the identifier the metadata carries, hand the resulting
local path to the database engine, resolve with the loaded metadata, and
finally try to unlink the allocated temp path. -/
def restoreSnapshot {σ : Type} (identifier : SnapshotIdentifier)
    (storageEngine : StorageEngine σ) (dbEngine : DatabaseEngine σ)
    (dumpFileLocation : String)
    (unlinkFn : String → σ → PRes σ Unit) (s : σ) : PRes σ StorageMetadata :=
  pfinally
    (pthen (storageEngine.loadMetadata identifier s) (fun metadata s =>
      pthen (storageEngine.loadSnapshot metadata.identifier dumpFileLocation s) (fun path s =>
        pthen (dbEngine.restore path s) (fun _ s => (s, Except.ok metadata)))))
    (tryUnlink unlinkFn dumpFileLocation)

/-- deleteSnapshot (src/lib/index.ts lines 87-94): metadata first, then the
snapshot object. -/
def deleteSnapshot {σ : Type} (identifier : SnapshotIdentifier)
    (storageEngine : StorageEngine σ) (s : σ) : PRes σ Unit :=
  pthen (storageEngine.deleteMetadata identifier s) (fun _ s =>
    storageEngine.deleteSnapshot identifier s)

/-- listSnapshots (src/lib/index.ts lines 29-31): pass-through. -/
def listSnapshots {σ : Type} (storageEngine : StorageEngine σ) (s : σ) :
    PRes σ (List SnapshotIdentifier) :=
  storageEngine.list s

/-- getMetadata (src/lib/index.ts lines 96-101): pass-through. -/
def getMetadata {σ : Type} (identifier : SnapshotIdentifier)
    (storageEngine : StorageEngine σ) (s : σ) : PRes σ StorageMetadata :=
  storageEngine.loadMetadata identifier s

/-- Contents of one stored file: a metadata document (the JSON text of an
EncodedMetadata) or an opaque snapshot blob. -/
inductive FileData where
  | meta (info : EncodedMetadata)
  | blob (contents : String)

/-- Association list lookup by key, first match wins. -/
def alistGet {α β : Type} [DecidableEq α] (k : α) : List (α × β) → Option β
  | [] => none
  | e :: rest => if k = e.1 then some e.2 else alistGet k rest

/-- Remove every entry with the given key. -/
def alistRemove {α β : Type} [DecidableEq α] (k : α) : List (α × β) → List (α × β)
  | [] => []
  | e :: rest => if k = e.1 then alistRemove k rest else e :: alistRemove k rest

/-- Write: overwrite any entry with the key, as fs.writeFile does. -/
def alistSet {α β : Type} [DecidableEq α] (k : α) (v : β) (l : List (α × β)) :
    List (α × β) :=
  (k, v) :: alistRemove k l

/-- path.join of two segments; a left segment that is empty disappears, which
is how an empty root path behaves under node path joining. -/
def pathJoin (a b : String) : String :=
  if a = "" then b else a ++ "/" ++ b

/-- FileBasedStorageEngine.path with only the folder argument (API.ts lines
94-100): the directory holding one sub-namespace. -/
def dirPath (root folder : String) : String :=
  pathJoin root folder

/-- FileBasedStorageEngine.path with an identifier (API.ts lines 94-100):
note the call identifier.filename() takes no argument in the source, so the
default extension .snapshot is used for the metadata key as well.  The key is
kept as the pair (directory, basename); the engine only builds paths of this
shape and basenames never contain a slash, so the pair determines the joined
path string and conversely. -/
def filePath (root folder : String) (identifier : SnapshotIdentifier) : String × String :=
  (dirPath root folder, identifier.filename ".snapshot")

/-- The joined single-string form of a (directory, basename) key, which is
what the source passes to the four primitives. -/
def fullPath (k : String × String) : String :=
  pathJoin k.1 k.2

/-- World of the FileSystemEngine instantiation: the backing directory tree
(remote) keyed by (directory, basename), and the local scratch disk the
orchestrator and database engine share, keyed by plain path. -/
structure FsWorld where
  remote : List ((String × String) × FileData)
  localFiles : List (String × String)

/-- fs.readdir of one directory in the world model: the basenames filed
directly under it. -/
def fsReaddir (remote : List ((String × String) × FileData)) (dir : String) : List String :=
  (remote.filter (fun e => decide (e.1.1 = dir))).map (fun e => e.1.2)

/-- FileSystemEngine.ls (API.ts lines 156-168): split each entry at the last
dot into (filename, extension) and keep only entries whose extension is
nonempty - the filter the source comments with Filter out all subdirs. -/
def lsDescriptors (names : List String) : List FileDescriptor :=
  (names.map (fun f =>
    let p := splitAtLast f '.'
    ({ filename := p.1, extension := p.2 } : FileDescriptor))).filter
      (fun fd => fd.extension != "")

/-- fs.unlink on the local scratch disk: ENOENT when the path is absent. -/
def fsUnlinkLocal (path : String) (s : FsWorld) : PRes FsWorld Unit :=
  match alistGet path s.localFiles with
  | some _ => ({ s with localFiles := alistRemove path s.localFiles }, Except.ok ())
  | none => (s, Except.error Err.notFound)

/-- Deletion of one remote key, as FileSystemEngine.delete via fs.unlink:
fails with ENOENT when no such file exists. -/
def fsDeleteKey (k : String × String) (s : FsWorld) : PRes FsWorld Unit :=
  match alistGet k s.remote with
  | some _ => ({ s with remote := alistRemove k s.remote }, Except.ok ())
  | none => (s, Except.error Err.notFound)

/-- The FileSystemEngine (API.ts lines 135-193) assembled through the
FileBasedStorageEngine skeleton (API.ts lines 80-133):
list is ls of the metadata directory mapped through getIdentifier;
loadSnapshot is copyFileToLocalDisk, which for this engine is when(source) -
it resolves with the storage-side path unconditionally, touching nothing;
loadMetadata reads the metadata key and parses it, rejecting with ENOENT when
absent; saveSnapshot streams the local file to the snapshot key, rejecting
when the local source is missing; saveMetadata writes the encoded record and
echoes its argument; the deletes unlink their keys. -/
def fsStorageEngine (root : String) : StorageEngine FsWorld where
  list := fun s =>
    (s, Except.ok ((lsDescriptors (fsReaddir s.remote (dirPath root "metadata"))).map
      (fun fd => getIdentifier fd.filename)))
  loadSnapshot := fun identifier _outfile s =>
    (s, Except.ok (fullPath (filePath root "snapshot" identifier)))
  loadMetadata := fun identifier s =>
    match alistGet (filePath root "metadata" identifier) s.remote with
    | some (FileData.meta info) => (s, Except.ok (StorageMetadata.fromJson info))
    | some (FileData.blob _) => (s, Except.error (Err.failure "not a metadata document"))
    | none => (s, Except.error Err.notFound)
  saveSnapshot := fun identifier snapshotPath s =>
    match alistGet snapshotPath s.localFiles with
    | some contents =>
      let remote1 := alistSet (filePath root "snapshot" identifier) (FileData.blob contents) s.remote
      ({ s with remote := remote1 }, Except.ok ())
    | none => (s, Except.error Err.notFound)
  saveMetadata := fun metadata s =>
    let remote1 := alistSet (filePath root "metadata" metadata.identifier)
      (FileData.meta (StorageMetadata.toJSON metadata)) s.remote
    ({ s with remote := remote1 }, Except.ok metadata)
  deleteSnapshot := fun identifier s => fsDeleteKey (filePath root "snapshot" identifier) s
  deleteMetadata := fun identifier s => fsDeleteKey (filePath root "metadata" identifier) s

/-- A database engine whose dump succeeds and writes the given contents at
the requested output path, and whose restore succeeds: the success path of
PostgresEngine (API.ts lines 313-339), whose external process is opaque to
the orchestration layer. -/
def fsDbEngine (dumpContents : String) : DatabaseEngine FsWorld where
  dump := fun _tables outpath s =>
    ({ s with localFiles := alistSet outpath dumpContents s.localFiles }, Except.ok ())
  restore := fun _path s => (s, Except.ok ())

/-- Observable calls a pipeline makes, with their arguments. -/
inductive Ev where
  | dump (tables : List String) (outpath : String)
  | restore (path : String)
  | saveSnapshot (identifier : SnapshotIdentifier) (path : String)
  | saveMetadata (m : StorageMetadata)
  | loadSnapshot (identifier : SnapshotIdentifier) (path : String)
  | loadMetadata (identifier : SnapshotIdentifier)
  | deleteSnapshot (identifier : SnapshotIdentifier)
  | deleteMetadata (identifier : SnapshotIdentifier)
  | listCall
  | unlink (path : String)

/-- Is the event a saveSnapshot call. -/
def Ev.isSaveSnapshot : Ev → Bool
  | Ev.saveSnapshot _ _ => true
  | _ => false

/-- Is the event a saveMetadata call. -/
def Ev.isSaveMetadata : Ev → Bool
  | Ev.saveMetadata _ => true
  | _ => false

/-- Is the event a delete of either half. -/
def Ev.isDelete : Ev → Bool
  | Ev.deleteSnapshot _ => true
  | Ev.deleteMetadata _ => true
  | _ => false

/-- Is the event an unlink of the given path. -/
def Ev.isUnlinkAt (p : String) : Ev → Bool
  | Ev.unlink q => q == p
  | _ => false

/-- Prescribed outcome of every step kind, for exercising the pipelines on
arbitrary combinations of fulfilment and rejection. -/
structure EngineSpec where
  dumpRes : Except Err Unit
  restoreRes : Except Err Unit
  saveSnapRes : Except Err Unit
  saveMetaRes : Except Err Unit
  loadSnapRes : Except Err String
  loadMetaRes : Except Err StorageMetadata
  deleteSnapRes : Except Err Unit
  deleteMetaRes : Except Err Unit
  unlinkRes : Except Err Unit

/-- Database engine that records its calls and answers as prescribed. -/
def traceDb (sp : EngineSpec) : DatabaseEngine (List Ev) where
  dump := fun tables outpath s => (s ++ [Ev.dump tables outpath], sp.dumpRes)
  restore := fun path s => (s ++ [Ev.restore path], sp.restoreRes)

/-- Storage engine that records its calls and answers as prescribed;
saveMetadata echoes its argument on fulfilment, as the contract requires. -/
def traceStorage (sp : EngineSpec) : StorageEngine (List Ev) where
  list := fun s => (s ++ [Ev.listCall], Except.ok [])
  loadSnapshot := fun identifier path s => (s ++ [Ev.loadSnapshot identifier path], sp.loadSnapRes)
  loadMetadata := fun identifier s => (s ++ [Ev.loadMetadata identifier], sp.loadMetaRes)
  saveSnapshot := fun identifier path s => (s ++ [Ev.saveSnapshot identifier path], sp.saveSnapRes)
  saveMetadata := fun m s => (s ++ [Ev.saveMetadata m], sp.saveMetaRes.map (fun _ => m))
  deleteSnapshot := fun identifier s => (s ++ [Ev.deleteSnapshot identifier], sp.deleteSnapRes)
  deleteMetadata := fun identifier s => (s ++ [Ev.deleteMetadata identifier], sp.deleteMetaRes)

/-- Local unlink that records its call and answers as prescribed; the
pipelines wrap it in tryUnlink, which swallows its rejection. -/
def traceUnlink (sp : EngineSpec) (path : String) (s : List Ev) : PRes (List Ev) Unit :=
  (s ++ [Ev.unlink path], sp.unlinkRes)

/-- A specification in which every step fulfils. -/
def allOkSpec : EngineSpec where
  dumpRes := Except.ok ()
  restoreRes := Except.ok ()
  saveSnapRes := Except.ok ()
  saveMetaRes := Except.ok ()
  loadSnapRes := Except.ok "loaded"
  loadMetaRes := Except.ok
    { identifier := { tablenames := ["t"], date := none }, stats := Json.obj [],
      metadata := Json.obj [] }
  deleteSnapRes := Except.ok ()
  deleteMetaRes := Except.ok ()
  unlinkRes := Except.ok ()

/-- The capture instant of the concrete scenario in the spec: 2016-02-01T00:00:00Z. -/
def scenarioDate : DateTime :=
  { year := 2016, month := 2, day := 1, hour := 0, minute := 0, second := 0 }

/-- The user metadata of the concrete scenario. -/
def scenarioUserMetadata : Json :=
  Json.obj [("my", Json.str "metadata")]

/-- The identifier the concrete scenario creates at store time. -/
def scenarioIdentifier : SnapshotIdentifier :=
  { tablenames := ["table_a", "table_b"], date := some scenarioDate }

/-- The store pipeline of the concrete scenario run against the filesystem
engine rooted at root, starting from an empty world. -/
def scenarioStore : PRes FsWorld StorageMetadata :=
  storeSnapshot (Sum.inr ["table_a", "table_b"]) scenarioUserMetadata
    (fsStorageEngine "root") (fsDbEngine "DUMPBYTES") scenarioDate "tmp/taara-1"
    fsUnlinkLocal { remote := [], localFiles := [] }

/-- Rebuilding a string from its character list is the identity. -/
theorem mk_toList (s : String) : String.mk s.toList = s :=
  rfl

/-- Appending strings appends their character lists. -/
theorem toList_append (a b : String) : (a ++ b).toList = a.toList ++ b.toList :=
  String.data_append a b

/-- When the separator does not occur, splitAtLastChars finds nothing. -/
theorem splitAtLastChars_of_not_mem (sep : Char) (cs : List Char) (h : sep ∉ cs) :
    splitAtLastChars sep cs = none := by
  induction cs with
  | nil => rfl
  | cons c rest ih =>
    have hc : c ≠ sep := fun hc => h (hc ▸ List.mem_cons_self c rest)
    have hr : sep ∉ rest := fun hr => h (List.mem_cons_of_mem c hr)
    simp [splitAtLastChars, ih hr, hc]

/-- splitAtLastChars cuts at the final occurrence: with a separator-free
tail, the marked occurrence is the last one. -/
theorem splitAtLastChars_append (sep : Char) (a b : List Char) (h : sep ∉ b) :
    splitAtLastChars sep (a ++ sep :: b) = some (a, b) := by
  induction a with
  | nil => simp [splitAtLastChars, splitAtLastChars_of_not_mem sep b h]
  | cons c a ih => simp [splitAtLastChars, ih]

/-- Reading a freshly rendered digit back gives the digit. -/
theorem charVal_digitChar (k : Nat) (h : k < 10) : charVal (digitChar k) = k := by
  interval_cases k <;> rfl

/-- A rendered digit is a digit character. -/
theorem isDigitChar_digitChar (k : Nat) (h : k < 10) : isDigitChar (digitChar k) = true := by
  interval_cases k <;> rfl

/-- A rendered digit is not the dot character. -/
theorem digitChar_ne_dot (k : Nat) (h : k < 10) : digitChar k ≠ '.' := by
  interval_cases k <;> decide

/-- Every month length is at most 31. -/
theorem daysInMonth_le (y m : Nat) : daysInMonth y m ≤ 31 := by
  unfold daysInMonth
  split
  · split <;> omega
  · split <;> omega

/-- The fields of a valid date are within the obvious numeric bounds. -/
theorem validDate_bounds (d : DateTime) (hd : validDate d = true) :
    d.year ≤ 9999 ∧ d.month ≤ 12 ∧ d.day ≤ 31 ∧ d.hour < 24 ∧ d.minute < 60 ∧ d.second < 60 := by
  simp only [validDate, Bool.and_eq_true, decide_eq_true_eq] at hd
  obtain ⟨⟨⟨⟨⟨⟨⟨h1, _⟩, h3⟩, _⟩, h5⟩, h6⟩, h7⟩, h8⟩ := hd
  exact ⟨h1, h3, h5.trans (daysInMonth_le d.year d.month), h6, h7, h8⟩

/-- The date format never emits a dot, so the last dot of a filename always
sits left of the date segment. -/
theorem dot_not_mem_formatChars (d : DateTime) (hd : validDate d = true) :
    '.' ∉ formatChars d := by
  obtain ⟨h1, h3, h5, h6, h7, h8⟩ := validDate_bounds d hd
  intro hmem
  simp only [formatChars, pad4, pad2, List.cons_append, List.nil_append, List.mem_cons,
    List.not_mem_nil, or_false] at hmem
  rcases hmem with h | h | h | h | h | h | h | h | h | h | h | h | h | h | h <;>
    first
      | exact digitChar_ne_dot _ (by omega) h.symm
      | exact absurd h (by decide)

/-- Reading back a zero-padded two-digit rendering. -/
theorem readNat2 (n : Nat) (h : n < 100) :
    readNat [digitChar (n / 10), digitChar (n % 10)] = n := by
  simp only [readNat, List.foldl, charVal_digitChar _ (show n / 10 < 10 by omega),
    charVal_digitChar _ (show n % 10 < 10 by omega)]
  omega

/-- Reading back a zero-padded four-digit rendering. -/
theorem readNat4 (n : Nat) (h : n < 10000) :
    readNat [digitChar (n / 1000), digitChar (n / 100 % 10), digitChar (n / 10 % 10),
      digitChar (n % 10)] = n := by
  simp only [readNat, List.foldl, charVal_digitChar _ (show n / 1000 < 10 by omega),
    charVal_digitChar _ (show n / 100 % 10 < 10 by omega),
    charVal_digitChar _ (show n / 10 % 10 < 10 by omega),
    charVal_digitChar _ (show n % 10 < 10 by omega)]
  omega

/-- Parsing a freshly formatted valid date recovers it exactly. -/
theorem parseDateChars_formatChars (d : DateTime) (hd : validDate d = true) :
    parseDateChars (formatChars d) = some d := by
  have hd0 := hd
  obtain ⟨y, mo, da, ho, mi, se⟩ := d
  have hb := hd
  simp only [validDate, Bool.and_eq_true, decide_eq_true_eq] at hb
  obtain ⟨⟨⟨⟨⟨⟨⟨h1, _⟩, h3⟩, _⟩, hdm⟩, h6⟩, h7⟩, h8⟩ := hb
  have h5 : da ≤ 31 := hdm.trans (daysInMonth_le y mo)
  have e : formatChars ⟨y, mo, da, ho, mi, se⟩ =
      [digitChar (y / 1000), digitChar (y / 100 % 10), digitChar (y / 10 % 10),
        digitChar (y % 10), digitChar (mo / 10), digitChar (mo % 10), digitChar (da / 10),
        digitChar (da % 10), '-', digitChar (ho / 10), digitChar (ho % 10),
        digitChar (mi / 10), digitChar (mi % 10), digitChar (se / 10), digitChar (se % 10)] := rfl
  rw [e]
  simp only [parseDateChars]
  rw [if_pos]
  · rw [readNat4 y (by omega), readNat2 mo (by omega), readNat2 da (by omega),
      readNat2 ho (by omega), readNat2 mi (by omega), readNat2 se (by omega)]
    rw [if_pos hd0]
  · refine ⟨by trivial, ?_⟩
    simp only [isDigitChar_digitChar _ (show y / 1000 < 10 by omega),
      isDigitChar_digitChar _ (show y / 100 % 10 < 10 by omega),
      isDigitChar_digitChar _ (show y / 10 % 10 < 10 by omega),
      isDigitChar_digitChar _ (show y % 10 < 10 by omega),
      isDigitChar_digitChar _ (show mo / 10 < 10 by omega),
      isDigitChar_digitChar _ (show mo % 10 < 10 by omega),
      isDigitChar_digitChar _ (show da / 10 < 10 by omega),
      isDigitChar_digitChar _ (show da % 10 < 10 by omega),
      isDigitChar_digitChar _ (show ho / 10 < 10 by omega),
      isDigitChar_digitChar _ (show ho % 10 < 10 by omega),
      isDigitChar_digitChar _ (show mi / 10 < 10 by omega),
      isDigitChar_digitChar _ (show mi % 10 < 10 by omega),
      isDigitChar_digitChar _ (show se / 10 < 10 by omega),
      isDigitChar_digitChar _ (show se % 10 < 10 by omega), Bool.and_self, Bool.and_true,
      Bool.true_and]

/-- The character list of a rebuilt string. -/
theorem toList_mk (l : List Char) : (String.mk l).toList = l :=
  rfl

/-- A text free of double dashes is returned whole by the split. -/
theorem splitDashes_of_no_dd (cs : List Char) (h : hasDoubleDash cs = false) :
    splitDashes cs = [cs] := by
  induction cs with
  | nil => rfl
  | cons c rest ih =>
    cases rest with
    | nil => rfl
    | cons c2 rest2 =>
      simp only [hasDoubleDash, Bool.or_eq_false_iff, decide_eq_false_iff_not] at h
      simp only [splitDashes, if_neg h.1, ih h.2]

/-- Splitting text that begins with the separator peels an empty field. -/
theorem splitDashes_sep_cons (t : List Char) :
    splitDashes ('-' :: '-' :: t) = [] :: splitDashes t := by
  simp [splitDashes]

/-- Ending with a dash is a property of the tail for lists of two or more. -/
theorem lastIsDash_cons_cons (a b : Char) (l : List Char) :
    lastIsDash (a :: b :: l) = lastIsDash (b :: l) := by
  simp only [lastIsDash, List.getLast?_cons_cons]

/-- The split consumes a leading field that is free of double dashes and does
not end in a dash, then continues after the separator: the JavaScript
left-to-right scan never cuts inside or at the edge of such a field. -/
theorem splitDashes_append (n t : List Char) (hn : hasDoubleDash n = false)
    (hl : lastIsDash n = false) :
    splitDashes (n ++ '-' :: '-' :: t) = n :: splitDashes t := by
  induction n with
  | nil => simpa using splitDashes_sep_cons t
  | cons c n ih =>
    cases n with
    | nil =>
      have hc : ¬ c = '-' := by
        intro h
        simp [lastIsDash, h] at hl
      simp [splitDashes, hc]
    | cons c2 n2 =>
      simp only [hasDoubleDash, Bool.or_eq_false_iff, decide_eq_false_iff_not] at hn
      rw [lastIsDash_cons_cons] at hl
      have ih2 := ih hn.2 hl
      simp only [List.cons_append] at ih2 ⊢
      simp only [splitDashes, if_neg hn.1, ih2]

/-- Splitting the joined table names recovers them, provided every name is
free of the two-dash separator and no name before the last ends in a dash. -/
theorem splitDashes_joinTables (names : List String) (h0 : names ≠ [])
    (hdd : ∀ n ∈ names, containsDoubleDash n = false)
    (hld : ∀ n ∈ names.dropLast, endsWithDash n = false) :
    splitDashes (joinTables names) = names.map String.toList := by
  induction names with
  | nil => exact absurd rfl h0
  | cons n rest ih =>
    cases rest with
    | nil =>
      have := splitDashes_of_no_dd n.toList (hdd n (List.mem_cons_self n []))
      simpa [joinTables] using this
    | cons n2 rest2 =>
      have hn : hasDoubleDash n.toList = false := hdd n (List.mem_cons_self n _)
      have hl : lastIsDash n.toList = false := by
        have hmem : n ∈ (n :: n2 :: rest2).dropLast := by
          simp [List.dropLast]
        exact hld n hmem
      have hrest := ih (by simp)
        (fun m hm => hdd m (List.mem_cons_of_mem n hm))
        (fun m hm => hld m (by simp [List.dropLast] at hm ⊢; tauto))
      simp only [joinTables, splitDashes_append n.toList _ hn hl, hrest, List.map_cons]

/-- Rebuilding every string of a list from its characters is the identity map. -/
theorem map_mk_toList (l : List String) : l.map (fun s => (⟨s.toList⟩ : String)) = l := by
  induction l with
  | nil => rfl
  | cons a l ih => simp [ih, mk_toList]

/-- Parsing the filename rendered with the empty extension recovers the
identifier: the shared round-trip core behind the identifier and metadata
round-trip claims. -/
theorem getIdentifier_filename_empty (names : List String) (d : DateTime) (h0 : names ≠ [])
    (hdd : ∀ n ∈ names, containsDoubleDash n = false)
    (hld : ∀ n ∈ names.dropLast, endsWithDash n = false)
    (hvd : validDate d = true) :
    getIdentifier (SnapshotIdentifier.filename
      { tablenames := names, date := some d } "") =
      { tablenames := names, date := some d } := by
  have hfile : SnapshotIdentifier.filename { tablenames := names, date := some d } "" =
      String.mk (joinTables names ++ '.' :: formatChars d) := by
    simp [SnapshotIdentifier.filename, dateChars]
  have hsplit : splitAtLastChars '.' (joinTables names ++ '.' :: formatChars d) =
      some (joinTables names, formatChars d) :=
    splitAtLastChars_append '.' _ _ (dot_not_mem_formatChars d hvd)
  have hnames : jsSplitDashes (String.mk (joinTables names)) = names := by
    simp only [jsSplitDashes, toList_mk,
      splitDashes_joinTables names h0 hdd hld, List.map_map]
    exact map_mk_toList names
  simp only [hfile, getIdentifier, splitAtLast, toList_mk, hsplit, hnames, parseDate,
    parseDateChars_formatChars d hvd]

/-- The metadata and snapshot sub-namespaces are distinct directories under
every root. -/
theorem dirPath_metadata_ne_snapshot (root : String) :
    dirPath root "metadata" ≠ dirPath root "snapshot" := by
  unfold dirPath pathJoin
  split
  · decide
  · intro h
    have h2 := congrArg String.toList h
    rw [toList_append, toList_append] at h2
    have h3 := List.append_cancel_left h2
    exact absurd h3 (by decide)

/-- The filename built by appending the metadata suffix splits back into the
name and that extension, whatever the name. -/
theorem splitAtLast_metadata_suffix (name : String) :
    splitAtLast (name ++ ".metadata") '.' = (name, "metadata") := by
  have hdot : '.' ∉ ("metadata" : String).toList := by decide
  have ha : (name ++ ".metadata").toList = name.toList ++ '.' :: ("metadata" : String).toList := by
    rw [toList_append]
    rfl
  simp only [splitAtLast, ha, splitAtLastChars_append '.' _ _ hdot, mk_toList]

/-- C2: the round-trip claim as stated fails; the amended form holds: for a
non-empty table-name sequence whose names avoid the dot and the two-dash join
separator, where no name before the last ends in a single dash, and for every
valid timestamp at second precision, parsing the encoding with the EMPTY
extension recovers the identifier exactly.  (With a non-empty extension the
parse splits at the dot before the extension instead, see the counterexample.) -/
theorem claim2_identifier_roundtrip (names : List String) (d : DateTime)
    (h0 : names ≠ [])
    (_hdot : ∀ n ∈ names, containsDot n = false)
    (hdd : ∀ n ∈ names, containsDoubleDash n = false)
    (hld : ∀ n ∈ names.dropLast, endsWithDash n = false)
    (hvd : validDate d = true) :
    getIdentifier (SnapshotIdentifier.filename { tablenames := names, date := some d } "") =
      { tablenames := names, date := some d } :=
  getIdentifier_filename_empty names d h0 hdd hld hvd

/-- Witness for C2 at the concrete scenario tables and date. -/
theorem claim2_witness :
    getIdentifier (SnapshotIdentifier.filename
      { tablenames := ["table_a", "table_b"], date := some scenarioDate } "") =
      { tablenames := ["table_a", "table_b"], date := some scenarioDate } :=
  claim2_identifier_roundtrip ["table_a", "table_b"] scenarioDate (by decide) (by decide)
    (by decide) (by decide) (by decide)

/-- Counterexample to C2 as stated: with the snapshot extension the parse
cuts at the extension dot and returns garbage, so the round trip fails even
for separator-free names; and with the empty extension it still fails for
the names a- and b, which avoid the two-dash separator and the dot yet fuse
with the separator into three dashes. -/
theorem claim2_counterexample :
    ¬ (getIdentifier (SnapshotIdentifier.filename
        { tablenames := ["table_a", "table_b"], date := some scenarioDate } ".snapshot") =
      { tablenames := ["table_a", "table_b"], date := some scenarioDate }) ∧
    ¬ (getIdentifier (SnapshotIdentifier.filename
        { tablenames := ["a-", "b"], date := some scenarioDate } "") =
      { tablenames := ["a-", "b"], date := some scenarioDate }) := by
  decide

/-- C3: the metadata round-trip claim fails as stated because the embedded
identifier string is parsed back with the lossy table-name split; the
amended form holds: decode after encode is the identity whenever the
identifier has a non-empty name list avoiding the two-dash separator, no
name before the last ends in a dash, and the date is valid - stats and
metadata round-trip verbatim for every JSON-representable payload. -/
theorem claim3_metadata_roundtrip (names : List String) (d : DateTime) (stats userMeta : Json)
    (h0 : names ≠ [])
    (hdd : ∀ n ∈ names, containsDoubleDash n = false)
    (hld : ∀ n ∈ names.dropLast, endsWithDash n = false)
    (hvd : validDate d = true) :
    StorageMetadata.fromJson (StorageMetadata.toJSON
      { identifier := { tablenames := names, date := some d }, stats := stats,
        metadata := userMeta }) =
      { identifier := { tablenames := names, date := some d }, stats := stats,
        metadata := userMeta } := by
  simp only [StorageMetadata.toJSON, StorageMetadata.fromJson,
    getIdentifier_filename_empty names d h0 hdd hld hvd]

/-- Witness for C3 at a concrete record with nested user metadata. -/
theorem claim3_witness :
    StorageMetadata.fromJson (StorageMetadata.toJSON
      { identifier := { tablenames := ["table_a", "table_b"], date := some scenarioDate },
        stats := Json.num 5, metadata := scenarioUserMetadata }) =
      { identifier := { tablenames := ["table_a", "table_b"], date := some scenarioDate },
        stats := Json.num 5, metadata := scenarioUserMetadata } :=
  claim3_metadata_roundtrip ["table_a", "table_b"] scenarioDate (Json.num 5)
    scenarioUserMetadata (by decide) (by decide) (by decide) (by decide)

/-- Counterexample to C3 as stated: a record whose identifier holds the
single table name a--b has JSON-representable stats and metadata, yet
decoding its encoding splits the name into a and b. -/
theorem claim3_counterexample :
    StorageMetadata.fromJson (StorageMetadata.toJSON
      { identifier := { tablenames := ["a--b"], date := some scenarioDate },
        stats := Json.null, metadata := Json.null }) ≠
      { identifier := { tablenames := ["a--b"], date := some scenarioDate },
        stats := Json.null, metadata := Json.null } := by
  intro h
  exact absurd (congrArg (fun m => m.identifier.tablenames) h) (by decide)

/-- C4: the claim fails; parse has no failure channel at all - there is no
MalformedIdentifier anywhere in the source.  Amended: an input whose datetime
segment cannot be parsed yields an identifier carrying the invalid-date
marker (the invalid moment), and list() maps parse over every metadata
entry, so such an entry surfaces as a garbage identifier in the listing
rather than as an error or a skipped entry. -/
theorem claim4_unparsable_passthrough (root name : String)
    (h : parseDate (splitAtLast name '.').2 = none) :
    ((fsStorageEngine root).list
      { remote := [((dirPath root "metadata", name ++ ".metadata"), FileData.blob "m")],
        localFiles := [] }).2 =
      Except.ok [{ tablenames := jsSplitDashes (splitAtLast name '.').1, date := none }] := by
  simp [fsStorageEngine, fsReaddir, lsDescriptors, splitAtLast_metadata_suffix, getIdentifier, h]

/-- Witness for C4 with the datetime segment zzz, which no moment format
accepts. -/
theorem claim4_witness :
    parseDate (splitAtLast "foo.zzz" '.').2 = none ∧
    ((fsStorageEngine "r").list
      { remote := [((dirPath "r" "metadata", "foo.zzz" ++ ".metadata"), FileData.blob "m")],
        localFiles := [] }).2 =
      Except.ok [{ tablenames := jsSplitDashes (splitAtLast "foo.zzz" '.').1, date := none }] :=
  ⟨by decide, claim4_unparsable_passthrough "r" "foo.zzz" (by decide)⟩

/-- Counterexample to C4 as stated: on the input foo.zzz the parse does not
fail - it returns an ordinary identifier whose date is the invalid marker. -/
theorem claim4_counterexample :
    getIdentifier "foo.zzz" = { tablenames := ["foo"], date := none } := by
  decide

/-- C9 (code bug evaluation): the filesystem listing maps the directory
entries nested (a subdirectory, no dot) and plain.ext; splitAtLast sends the
dot-less name to (empty, nested), whose extension is non-empty, so the
filter keeps it instead of excluding it - contradicting the source comment
Filter out all subdirs and the repository test that expects only plain/ext. -/
theorem claim9_ls_keeps_dotless :
    lsDescriptors ["nested", "plain.ext"] =
      [{ filename := "", extension := "nested" }, { filename := "plain", extension := "ext" }] := by
  decide

/-- C10: a single table-name string is treated exactly as its one-element
list through the whole store pipeline, over every storage engine, database
engine, clock, temp path, unlink primitive and starting state. -/
theorem claim10_single_table_string (σ : Type) (se : StorageEngine σ) (db : DatabaseEngine σ)
    (um : Json) (d : DateTime) (temp t : String)
    (unlinkFn : String → σ → PRes σ Unit) (s : σ) :
    storeSnapshot (Sum.inl t) um se db d temp unlinkFn s =
      storeSnapshot (Sum.inr [t]) um se db d temp unlinkFn s :=
  rfl

/-- C5: the claim fails; the identifier constructor and storeSnapshot
perform no validation, and no InvalidArgument exists in the source.
Amended: for every tables argument - the empty list included - the store
pipeline proceeds normally; when every step fulfils it performs dump,
saveSnapshot, saveMetadata and the cleanup unlink in that order and returns
the stored record, whose identifier carries capturedAt equal to the current
instant now and exactly the arrayified table list. -/
theorem claim5_no_validation (tables : String ⊕ List String) (um : Json) (d : DateTime)
    (temp : String) :
    storeSnapshot tables um (traceStorage allOkSpec) (traceDb allOkSpec) d temp
      (traceUnlink allOkSpec) [] =
      ([Ev.dump (arrayify tables) temp,
        Ev.saveSnapshot (SnapshotIdentifier.mk (arrayify tables) (some d)) temp,
        Ev.saveMetadata (StorageMetadata.mk
          (SnapshotIdentifier.mk (arrayify tables) (some d)) (Json.obj []) um),
        Ev.unlink temp],
       Except.ok (StorageMetadata.mk
         (SnapshotIdentifier.mk (arrayify tables) (some d)) (Json.obj []) um)) := by
  simp [storeSnapshot, pthen, pfinally, tryUnlink, traceStorage, traceDb, traceUnlink, allOkSpec,
    Except.map]

/-- Counterexample to C5 as stated: storing with the empty table list does
not fail with InvalidArgument - with every step fulfilling, the pipeline
succeeds and returns a record whose identifier has no table names. -/
theorem claim5_counterexample :
    (storeSnapshot (Sum.inr []) (Json.obj []) (traceStorage allOkSpec) (traceDb allOkSpec)
      scenarioDate "tmp" (traceUnlink allOkSpec) []).2 =
      Except.ok (StorageMetadata.mk
        (SnapshotIdentifier.mk [] (some scenarioDate)) (Json.obj []) (Json.obj [])) :=
  rfl

/-- C7: storeSnapshot sequences dump, then saveSnapshot, then saveMetadata:
saveSnapshot runs only when dump fulfils and saveMetadata only when both
previous steps fulfil; the pipeline result is the sequential composition of
the step outcomes, so the first rejection aborts the rest and propagates;
and no delete of either half is ever issued - in particular no rollback of
the saved snapshot when saveMetadata rejects. -/
theorem claim7_store_sequencing (sp : EngineSpec) (tables : String ⊕ List String) (um : Json)
    (d : DateTime) (temp : String) :
    (((storeSnapshot tables um (traceStorage sp) (traceDb sp) d temp
        (traceUnlink sp) []).1.any Ev.isSaveMetadata) = true ↔
      sp.dumpRes = Except.ok () ∧ sp.saveSnapRes = Except.ok ()) ∧
    (((storeSnapshot tables um (traceStorage sp) (traceDb sp) d temp
        (traceUnlink sp) []).1.any Ev.isSaveSnapshot) = true ↔
      sp.dumpRes = Except.ok ()) ∧
    ((storeSnapshot tables um (traceStorage sp) (traceDb sp) d temp
        (traceUnlink sp) []).1.any Ev.isDelete) = false ∧
    (storeSnapshot tables um (traceStorage sp) (traceDb sp) d temp
        (traceUnlink sp) []).2 =
      sp.dumpRes.bind (fun _ => sp.saveSnapRes.bind (fun _ => sp.saveMetaRes.map (fun _ =>
        StorageMetadata.mk (SnapshotIdentifier.mk (arrayify tables) (some d))
          (Json.obj []) um))) := by
  obtain ⟨dr, rr, ssr, smr, lsr, lmr, dsr, dmr, ur⟩ := sp
  cases dr <;> cases ssr <;> cases smr <;>
    simp [storeSnapshot, pthen, pfinally, tryUnlink, traceStorage, traceDb, traceUnlink,
      Ev.isSaveMetadata, Ev.isSaveSnapshot, Ev.isDelete, Except.map, Except.bind]

/-- C8: on every outcome of the store and restore pipelines - success, dump
or restore rejection, storage rejection, and for restore even a rejected
metadata load - the unlink of the temp path allocated for the call is
attempted; and the pipeline outcome never depends on the unlink outcome,
because tryUnlink swallows the rejection before the finally clause can see
it. -/
theorem claim8_cleanup_always (sp : EngineSpec) (tables : String ⊕ List String) (um : Json)
    (d : DateTime) (temp : String) (identifier : SnapshotIdentifier) (r : Except Err Unit) :
    ((storeSnapshot tables um (traceStorage sp) (traceDb sp) d temp
        (traceUnlink sp) []).1.any (Ev.isUnlinkAt temp) = true) ∧
    ((restoreSnapshot identifier (traceStorage sp) (traceDb sp) temp
        (traceUnlink sp) []).1.any (Ev.isUnlinkAt temp) = true) ∧
    (storeSnapshot tables um (traceStorage sp) (traceDb sp) d temp
        (traceUnlink { sp with unlinkRes := r }) []).2 =
      (storeSnapshot tables um (traceStorage sp) (traceDb sp) d temp
        (traceUnlink sp) []).2 ∧
    (restoreSnapshot identifier (traceStorage sp) (traceDb sp) temp
        (traceUnlink { sp with unlinkRes := r }) []).2 =
      (restoreSnapshot identifier (traceStorage sp) (traceDb sp) temp
        (traceUnlink sp) []).2 := by
  obtain ⟨dr, rr, ssr, smr, lsr, lmr, dsr, dmr, ur⟩ := sp
  refine ⟨?_, ?_, rfl, rfl⟩
  · cases dr <;> cases ssr <;> cases smr <;>
      simp [storeSnapshot, pthen, pfinally, tryUnlink, traceStorage, traceDb, traceUnlink,
        Ev.isUnlinkAt]
  · cases lmr <;> cases lsr <;> cases rr <;>
      simp [restoreSnapshot, pthen, pfinally, tryUnlink, traceStorage, traceDb, traceUnlink,
        Ev.isUnlinkAt]

/-- C1: the claim fails on the key; the amended form holds: storing the
scenario tables with the scenario user metadata at the scenario instant
persists the metadata record under
root/metadata/table_a--table_b.20160201-000000.snapshot - the names joined
by TWO dashes, not an arrow, and the DEFAULT snapshot extension, because the
path helper calls filename() without an argument - and the returned record
carries the user metadata unchanged. -/
theorem claim1_scenario_store :
    scenarioStore.2 = Except.ok (StorageMetadata.mk scenarioIdentifier (Json.obj [])
      scenarioUserMetadata) ∧
    alistGet ("root/metadata", "table_a--table_b.20160201-000000.snapshot")
      scenarioStore.1.remote =
      some (FileData.meta (EncodedMetadata.mk "table_a--table_b.20160201-000000"
        scenarioUserMetadata (Json.obj []))) :=
  ⟨rfl, rfl⟩

/-- Counterexample to C1 as stated: after the scenario store, nothing lies
under the claimed arrow-and-metadata-extension key, and the key the engine
builds for the scenario identifier differs from the claimed one. -/
theorem claim1_counterexample :
    alistGet ("root/metadata", "table_a-->table_b.20160201-000000.metadata")
      scenarioStore.1.remote = none ∧
    fullPath (filePath "root" "metadata" scenarioIdentifier) ≠
      "root/metadata/table_a-->table_b.20160201-000000.metadata" := by
  exact ⟨rfl, by decide⟩

/-- C6: the first half of the claim fails for the filesystem backend, whose
snapshot load resolves with the storage-side path without checking
existence; the amended form holds: after deleteSnapshot on a world holding
exactly the two halves of one snapshot, the backing store is empty, a
metadata load rejects with the not-found error and the listing no longer
includes the identifier - while a snapshot load still resolves, returning
the now-dangling storage path. -/
theorem claim6_delete_removes_both (root : String) (id : SnapshotIdentifier)
    (info : EncodedMetadata) (bl : String) :
    deleteSnapshot id (fsStorageEngine root)
      (FsWorld.mk [(filePath root "metadata" id, FileData.meta info),
        (filePath root "snapshot" id, FileData.blob bl)] []) =
      (FsWorld.mk [] [], Except.ok ()) ∧
    (getMetadata id (fsStorageEngine root) (FsWorld.mk [] [])).2 =
      Except.error Err.notFound ∧
    (listSnapshots (fsStorageEngine root) (FsWorld.mk [] [])).2 = Except.ok [] ∧
    ((fsStorageEngine root).loadSnapshot id "out" (FsWorld.mk [] [])).2 =
      Except.ok (fullPath (filePath root "snapshot" id)) := by
  have h1 : ¬ (filePath root "metadata" id = filePath root "snapshot" id) := fun h =>
    dirPath_metadata_ne_snapshot root (congrArg Prod.fst h)
  have h2 : ¬ (filePath root "snapshot" id = filePath root "metadata" id) := fun h =>
    h1 h.symm
  refine ⟨?_, rfl, rfl, rfl⟩
  simp [deleteSnapshot, fsStorageEngine, fsDeleteKey, pthen, alistGet, alistRemove, h1, h2]

/-- Witness for C6 at the concrete scenario identifier and root. -/
theorem claim6_witness :
    deleteSnapshot scenarioIdentifier (fsStorageEngine "root")
      (FsWorld.mk [(filePath "root" "metadata" scenarioIdentifier,
        FileData.meta (EncodedMetadata.mk "table_a--table_b.20160201-000000"
          scenarioUserMetadata (Json.obj []))),
        (filePath "root" "snapshot" scenarioIdentifier, FileData.blob "DUMPBYTES")] []) =
      (FsWorld.mk [] [], Except.ok ()) ∧
    (getMetadata scenarioIdentifier (fsStorageEngine "root") (FsWorld.mk [] [])).2 =
      Except.error Err.notFound ∧
    (listSnapshots (fsStorageEngine "root") (FsWorld.mk [] [])).2 = Except.ok [] ∧
    ((fsStorageEngine "root").loadSnapshot scenarioIdentifier "out" (FsWorld.mk [] [])).2 =
      Except.ok (fullPath (filePath "root" "snapshot" scenarioIdentifier)) :=
  claim6_delete_removes_both "root" scenarioIdentifier
    (EncodedMetadata.mk "table_a--table_b.20160201-000000" scenarioUserMetadata (Json.obj []))
    "DUMPBYTES"

/-- Counterexample to C6 as stated: on an empty backing store - no snapshot
entry for any identifier - the filesystem loadSnapshot does not reject with
the not-found error; it resolves with the storage path. -/
theorem claim6_counterexample :
    ((fsStorageEngine "root").loadSnapshot scenarioIdentifier "outfile"
      (FsWorld.mk [] [])).2 =
      Except.ok "root/snapshot/table_a--table_b.20160201-000000.snapshot" :=
  rfl
